import Mathlib

/-!
Verification of the metadata normalization and report-assembly pipeline of
`ts2md.py` (video/image → Markdown report).

The Python source is shallowly embedded:
* Python dicts (which preserve insertion order) become association lists
  (`Dict`), with `dictInsert` modelling `d[k] = v` (update in place, append
  when the key is new) and `dictLookup` modelling `d.get(k)` / `d[k]`.
* Python float arithmetic in the GPS converter becomes exact rational
  arithmetic over `ℚ`; every value the claims touch is a dyadic rational that
  Python's float represents exactly, and `floatDiv` raises on a zero
  denominator exactly as Python's float division does.
* Exceptions become `Except String`; a `try`/`except` block that assigns
  `meta['error'] = str(e)` becomes a `match` on the `Except` value.
* The external collaborators (PIL/piexif decoder, exiftool probe) are
  represented by their observable results: a structured EXIF record for
  images, the list of stdout lines for the video probe, with explicit
  error alternatives for the exceptions they can raise.
-/

/-- Association list standing for a Python `dict[str, str]`
(insertion-ordered, keys unique by construction of `dictInsert`). -/
abbrev Dict := List (String × String)

/-- `d.get(k)`: the value at the first (hence, for dicts, only) entry whose
key is `k`. -/
def dictLookup : Dict → String → Option String
  | [], _ => none
  | (k, v) :: rest, key => if k = key then some v else dictLookup rest key

/-- `k in d` (Python membership test on a dict): key presence, regardless of
whether the stored value is empty. -/
def hasKey (m : Dict) (k : String) : Bool :=
  (dictLookup m k).isSome

/-- `d[k] = v` on a Python dict: replace the value in place if the key
exists (keeping its position), otherwise append the new entry. -/
def dictInsert : Dict → String → String → Dict
  | [], k, v => [(k, v)]
  | (k', v') :: rest, k, v =>
      if k' = k then (k, v) :: rest else (k', v') :: dictInsert rest k v

/-- A raw EXIF rational triple `((deg_num, deg_den), (min_num, min_den),
(sec_num, sec_den))` as handed to `exif_gps_to_decimal`. -/
abbrev Triple := (Int × Int) × (Int × Int) × (Int × Int)

/-- Python float division `float(a) / float(b)`: raises
`ZeroDivisionError` on a zero divisor, otherwise exact here (the claims only
involve values floats represent exactly). -/
def floatDiv (a b : Int) : Except String ℚ :=
  if b = 0 then .error "float division by zero" else .ok ((a : ℚ) / (b : ℚ))

/-- Inner helper `to_deg` of `exif_gps_to_decimal`:
`deg + min/60 + sec/3600`, each component `numerator/denominator`. -/
def to_deg (t : Triple) : Except String ℚ := do
  let d ← floatDiv t.1.1 t.1.2
  let m ← floatDiv t.2.1.1 t.2.1.2
  let s ← floatDiv t.2.2.1 t.2.2.2
  pure (d + m / 60 + s / 3600)

/-- `exif_gps_to_decimal(gps)`: on a pair of triples returns the two decimal
values (propagating a division-by-zero exception); on anything that is not a
two-element sequence returns `(None, None)`, modelled as `none`. -/
def exif_gps_to_decimal (gps : List Triple) : Except String (Option (ℚ × ℚ)) :=
  match gps with
  | [a, b] => do
      let lat ← to_deg a
      let lon ← to_deg b
      pure (some (lat, lon))
  | _ => pure none

/-- The hemisphere sign application of `extract_image_metadata`
(lines 74–77): negate latitude when the reference is `S`, longitude when the
reference is `W`. -/
def applySignRefs (latRef lonRef : String) (p : ℚ × ℚ) : ℚ × ℚ :=
  (if latRef = "S" then -p.1 else p.1, if lonRef = "W" then -p.2 else p.2)

/-- Left-pad a decimal digit string with zeros to the given width. -/
def padZeros (s : String) (n : Nat) : String :=
  ⟨List.replicate (n - s.data.length) '0'⟩ ++ s

/-- Python's `f"{x:.6f}"` on the exact rational carried by the float:
render with six digits after the decimal point (rounding to nearest; the
tie-breaking mode is immaterial to every claim). -/
def formatFixed6 (q : ℚ) : String :=
  let n : Int := round (q * 1000000)
  let sign := if n < 0 then "-" else ""
  let a := n.natAbs
  sign ++ toString (a / 1000000) ++ "." ++ padZeros (toString (a % 1000000)) 6

/-- The rendered GPS value `f"{lat:.6f}, {lon:.6f}"`. -/
def formatGps (lat lon : ℚ) : String :=
  formatFixed6 lat ++ ", " ++ formatFixed6 lon

/-- Auxiliary scan for the first `:` in a character list, accumulating the
characters before it. -/
def splitColonAux : List Char → List Char → Option (String × String)
  | [], _ => none
  | c :: rest, acc =>
      if c = ':' then some (⟨acc.reverse⟩, ⟨rest⟩) else splitColonAux rest (c :: acc)

/-- Python's `line.split(':', 1)` guarded by `':' in line`: `none` when the
line has no colon, otherwise the text before and after the first colon. -/
def splitFirstColon (s : String) : Option (String × String) :=
  splitColonAux s.data []

/-- Python's `str.strip()`: drop leading and trailing whitespace. -/
def pyStrip (s : String) : String :=
  ⟨((s.data.dropWhile Char.isWhitespace).reverse.dropWhile Char.isWhitespace).reverse⟩

/-- One iteration of the probe-output parsing loop of
`extract_video_metadata`: `if ':' in line: key, value = line.split(':', 1);
meta[key.strip()] = value.strip()`. -/
def parseLine (m : Dict) (line : String) : Dict :=
  match splitFirstColon line with
  | some (k, v) => dictInsert m (pyStrip k) (pyStrip v)
  | none => m

/-- The whole parsing loop over the probe's stdout lines. -/
def parseLines (lines : List String) : Dict :=
  lines.foldl parseLine []

/-- Python truthiness of a `str | None` value: `None` and `''` are falsy. -/
def pyTruthy (o : Option String) : Bool :=
  match o with
  | some s => s != ""
  | none => false

/-- Python's `a or b` on `str | None` values. -/
def pyOr (a b : Option String) : Option String :=
  if pyTruthy a then a else b

/-- Line 134: `meta.get('Description') or meta.get('UserComment') or
meta.get('XPComment') or meta.get('Comment')`. -/
def descChain (m : Dict) : Option String :=
  pyOr (dictLookup m "Description")
    (pyOr (dictLookup m "UserComment")
      (pyOr (dictLookup m "XPComment") (dictLookup m "Comment")))

/-- Line 135: `meta['Description'] = desc if desc else ''`. -/
def descValue (m : Dict) : String :=
  match descChain m with
  | some s => if s = "" then "" else s
  | none => ""

/-- `extract_video_metadata`: the probe result is either the stdout lines of
the exiftool invocation, or the exception raised by `subprocess.run`
(missing executable, process error), which the `except` captures as a single
`error` entry. -/
def extract_video_metadata (probe : Except String (List String)) : Dict :=
  match probe with
  | .error e => [("error", e)]
  | .ok lines =>
      let meta := parseLines lines
      dictInsert meta "Description" (descValue meta)

/-- The first non-empty (Python-truthy) value of a list of optional raw tag
values; formulation of the spec's "first non-empty wins" precedence rules,
for comparison with the code's behavior. -/
def firstNonEmpty : List (Option String) → Option String
  | [] => none
  | o :: rest => if pyTruthy o then o else firstNonEmpty rest

/-- The Creation Date precedence rule exactly as the spec states it: the
first present value among the probe tags CreateDate, CreationDate,
ModifyDate, TrackCreateDate, MediaCreateDate, FileModifyDate. -/
def claimedCreationDate (m : Dict) : Option String :=
  match dictLookup m "CreateDate" with
  | some v => some v
  | none => match dictLookup m "CreationDate" with
    | some v => some v
    | none => match dictLookup m "ModifyDate" with
      | some v => some v
      | none => match dictLookup m "TrackCreateDate" with
        | some v => some v
        | none => match dictLookup m "MediaCreateDate" with
          | some v => some v
          | none => dictLookup m "FileModifyDate"

/-- A rendered Markdown bullet `f"- {label}: {value}"`. -/
def bulletLine (label v : String) : String :=
  "- " ++ label ++ ": " ++ v

/-- The body of the per-field loop of the report assembler: Description
always renders (value when present and non-empty, otherwise `Not found`);
every other field renders only when its key is present in the map. -/
def renderField (meta : Dict) (kl : String × String) : List String :=
  if kl.1 = "Description" then
    match dictLookup meta kl.1 with
    | some v => if v = "" then [bulletLine kl.2 "Not found"] else [bulletLine kl.2 v]
    | none => [bulletLine kl.2 "Not found"]
  else
    match dictLookup meta kl.1 with
    | some v => [bulletLine kl.2 v]
    | none => []

/-- The `for key, label in fields` loop: bullet lines in declared order. -/
def renderFieldLines (fields : List (String × String)) (meta : Dict) : List String :=
  match fields with
  | [] => []
  | kl :: rest => renderField meta kl ++ renderFieldLines rest meta

/-- The same loop keeping, for each emitted line, the label of the field
that produced it (used to state the ordering invariant). -/
def renderFieldPairs (fields : List (String × String)) (meta : Dict) : List (String × String) :=
  match fields with
  | [] => []
  | kl :: rest => (renderField meta kl).map (fun l => (kl.2, l)) ++ renderFieldPairs rest meta

/-- The full metadata block: the field loop, then
`if not any(key in meta for key, _ in fields): write("- No metadata found")`. -/
def renderMetaBlock (fields : List (String × String)) (meta : Dict) : List String :=
  renderFieldLines fields meta ++
    (if fields.any (fun kl => hasKey meta kl.1) then [] else ["- No metadata found"])

/-- The `fields` list of the video branch of `main` (lines 195–208). -/
def videoFields : List (String × String) :=
  [("Creation Date", "Creation Date"),
   ("Description", "Description"),
   ("Duration", "Video Length"),
   ("Comment", "Video Description"),
   ("GPS", "GPS"),
   ("Make", "Make"),
   ("Model", "Model"),
   ("MIME Type", "MIME Type"),
   ("File Name", "File Name"),
   ("File Size", "File Size"),
   ("Image Width", "Image Width"),
   ("Image Height", "Image Height")]

/-- The `fields` list of the image branch of `main` (lines 226–237). -/
def imageFields : List (String × String) :=
  [("Creation Date", "Creation Date"),
   ("Description", "Description"),
   ("GPS", "GPS"),
   ("Make", "Make"),
   ("Model", "Model"),
   ("MIME Type", "MIME Type"),
   ("File Name", "File Name"),
   ("File Size", "File Size"),
   ("Image Width", "Image Width"),
   ("Image Height", "Image Height")]

/-- Python's `sorted(files)`: the sorted permutation of the input under the
(case-sensitive) lexicographic order on path strings. -/
def sortFiles (files : List String) : List String :=
  List.insertionSort (fun a b => a ≤ b) files

/-- The GPS IFD of a decoded EXIF block as `extract_image_metadata` reads
it: the latitude/longitude rational triples and the hemisphere reference
tags, each possibly absent. -/
structure GpsIFD where
  lat : Option Triple
  lon : Option Triple
  latRef : Option String
  lonRef : Option String

/-- The decoded EXIF dictionaries as `extract_image_metadata` reads them
(values already decoded to text; `piexif` hands back bytes, whose `decode`
is modelled as the resulting string). -/
structure ExifData where
  dateTimeOriginal : Option String
  gps : Option GpsIFD
  make : Option String
  model : Option String
  description : Option String

/-- Everything `extract_image_metadata` observes about a successfully
opened non-HEIC image file. `exif` is `none` when `img.info` has no `exif`
bytes, `some (.error e)` when `piexif.load` raises on them, and
`some (.ok ex)` when it decodes. -/
structure ImageFileData where
  width : Nat
  height : Nat
  exif : Option (Except String ExifData)
  fileName : String
  fileSizeBytes : Nat
  mime : String

/-- The ways the image reader can start: a `.heic` file without the optional
`pyheif` dependency, a `.heic` file with it, a decoder exception raised by
`Image.open`, or an opened non-HEIC image. -/
inductive ImageSource where
  | heicNoLib
  | heicWithLib (width height : Nat)
  | openFail (e : String)
  | opened (img : ImageFileData)

/-- The `f"{img.width}x{img.height}"` Image Size value. -/
def sizeStr (w h : Nat) : String :=
  toString w ++ "x" ++ toString h

/-- A conditional entry `if v: meta[key] = v` (Python truthiness on the raw
value: absent and empty are both skipped). -/
def truthyEntry (key : String) (v : Option String) : Dict :=
  match v with
  | some s => if s = "" then [] else [(key, s)]
  | none => []

/-- The GPS block of `extract_image_metadata` (lines 67–78) for a present,
non-empty GPS IFD: when both latitude and longitude tags are present, look
up the reference tags with defaults `N` and `E`, convert, apply hemisphere
signs and format; any conversion exception propagates. -/
def imageGpsEntry (g : GpsIFD) : Except String Dict :=
  match g.lat, g.lon with
  | some latT, some lonT =>
      let latRef := g.latRef.getD "N"
      let lonRef := g.lonRef.getD "E"
      match exif_gps_to_decimal [latT, lonT] with
      | .error e => .error e
      | .ok none => .ok []
      | .ok (some p) =>
          let q := applySignRefs latRef lonRef p
          .ok [("GPS", formatGps q.1 q.2)]
  | _, _ => .ok []

/-- The GPS step including the `if gps` guard (`exif_dict.get('GPS')`
absent or empty is falsy). -/
def gpsStep (g : Option GpsIFD) : Except String Dict :=
  match g with
  | none => .ok []
  | some g => imageGpsEntry g

/-- The file-info entries of lines 90–95 (always reached when no exception
occurred earlier in the `try` block). -/
def fileEntries (img : ImageFileData) : Dict :=
  [("File Name", img.fileName),
   ("File Size", toString (img.fileSizeBytes / 1024) ++ " KB"),
   ("MIME Type", img.mime),
   ("Image Width", toString img.width),
   ("Image Height", toString img.height)]

/-- `extract_image_metadata`: the whole function body runs inside one
`try`; an exception anywhere appends a single `error` entry to whatever was
already assigned and skips the rest. -/
def extract_image_metadata (src : ImageSource) : Dict :=
  match src with
  | .heicNoLib => [("error", "pyheif not installed; cannot extract HEIC metadata.")]
  | .heicWithLib w h => [("Image Size", sizeStr w h)]
  | .openFail e => [("error", e)]
  | .opened img =>
      let m0 : Dict := [("Image Size", sizeStr img.width img.height)]
      match img.exif with
      | some (.error e) => m0 ++ [("error", e)]
      | none => m0 ++ fileEntries img
      | some (.ok ex) =>
          let m1 := m0 ++ truthyEntry "Creation Date" ex.dateTimeOriginal
          match gpsStep ex.gps with
          | .error e => m1 ++ [("error", e)]
          | .ok gpsE =>
              m1 ++ gpsE ++ truthyEntry "Make" ex.make ++ truthyEntry "Model" ex.model
                ++ truthyEntry "Description" ex.description ++ fileEntries img

/-- Replace the decoded EXIF block of an opened image. -/
def withExif (img : ImageFileData) (ex : ExifData) : ImageFileData :=
  { img with exif := some (Except.ok ex) }

/-- A rational triple with a zero denominator in any of its three
components. -/
def hasZeroDen (t : Triple) : Prop :=
  t.1.2 = 0 ∨ t.2.1.2 = 0 ∨ t.2.2.2 = 0

/-- C1: the GPS converter maps each rational triple to
`deg + min/60 + sec/3600`; on ((1,1),(30,1),(0,1)) and ((2,1),(15,1),(0,1))
it yields (1.5, 2.25), and the hemisphere-sign step leaves refs N/E alone,
negates latitude for S, and negates longitude for W, giving (-1.5, 2.25)
and (1.5, -2.25) respectively. -/
theorem gps_converter_example_values :
    exif_gps_to_decimal [((1, 1), (30, 1), (0, 1)), ((2, 1), (15, 1), (0, 1))]
      = Except.ok (some ((3 : ℚ)/2, (9 : ℚ)/4)) ∧
    applySignRefs "N" "E" ((3 : ℚ)/2, (9 : ℚ)/4) = ((3 : ℚ)/2, (9 : ℚ)/4) ∧
    applySignRefs "S" "E" ((3 : ℚ)/2, (9 : ℚ)/4) = (-(3 : ℚ)/2, (9 : ℚ)/4) ∧
    applySignRefs "N" "W" ((3 : ℚ)/2, (9 : ℚ)/4) = ((3 : ℚ)/2, -(9 : ℚ)/4) := by
  refine ⟨?_, ?_, ?_, ?_⟩ <;>
    simp [exif_gps_to_decimal, to_deg, floatDiv, applySignRefs, Bind.bind, Except.bind,
      Pure.pure, Except.pure, Prod.ext_iff] <;> norm_num

theorem dictLookup_insert_self (m : Dict) (k v : String) :
    dictLookup (dictInsert m k v) k = some v := by
  induction m with
  | nil => simp [dictInsert, dictLookup]
  | cons e rest ih =>
      obtain ⟨k', v'⟩ := e
      by_cases h : k' = k
      · subst h; simp [dictInsert, dictLookup]
      · simp [dictInsert, dictLookup, h, ih]

theorem dictLookup_insert_ne (m : Dict) (k v k₁ : String) (h : k₁ ≠ k) :
    dictLookup (dictInsert m k v) k₁ = dictLookup m k₁ := by
  induction m with
  | nil => simp [dictInsert, dictLookup, Ne.symm h]
  | cons e rest ih =>
      obtain ⟨k', v'⟩ := e
      by_cases hk : k' = k
      · subst hk
        simp [dictInsert, dictLookup, Ne.symm h]
      · by_cases hk₁ : k' = k₁ <;> simp [dictInsert, dictLookup, hk, hk₁, h, ih]

/-- C3 counterexample: a probe output consisting of the single line
`CreateDate: 2020` satisfies the spec's precedence rule with value `2020`,
but the code's canonical Creation Date (the `Creation Date` key the report
assembler reads) is absent: no fallback chain exists in the code. -/
theorem creation_date_no_fallback_chain :
    claimedCreationDate (parseLines ["CreateDate: 2020"]) = some "2020" ∧
    dictLookup (extract_video_metadata (Except.ok ["CreateDate: 2020"])) "Creation Date"
      = none := by
  constructor <;> decide

/-- C3 amended: the canonical Creation Date field is the parsed probe entry
whose key is exactly `Creation Date`, passed through unchanged; the
Description fix-up is the only post-parsing step and does not affect it. -/
theorem creation_date_passthrough (lines : List String) :
    dictLookup (extract_video_metadata (Except.ok lines)) "Creation Date"
      = dictLookup (parseLines lines) "Creation Date" := by
  unfold extract_video_metadata
  exact dictLookup_insert_ne _ _ _ _ (by decide)

theorem pyTruthy_true {o : Option String} (h : pyTruthy o = true) :
    ∃ s, o = some s ∧ ¬ s = "" := by
  cases o with
  | none => simp [pyTruthy] at h
  | some s =>
      refine ⟨s, rfl, ?_⟩
      simpa [pyTruthy] using h

theorem pyTruthy_false {o : Option String} (h : pyTruthy o = false) :
    o = none ∨ o = some "" := by
  cases o with
  | none => exact Or.inl rfl
  | some s =>
      right
      have hs : s = "" := by simpa [pyTruthy] using h
      rw [hs]

theorem descValue_eq_firstNonEmpty (m : Dict) :
    descValue m
      = (firstNonEmpty [dictLookup m "Description", dictLookup m "UserComment",
          dictLookup m "XPComment", dictLookup m "Comment"]).getD "" := by
  simp only [descValue, descChain, pyOr, firstNonEmpty]
  cases h1 : pyTruthy (dictLookup m "Description")
  case true =>
    obtain ⟨s, hs, hne⟩ := pyTruthy_true h1
    simp [hs, hne]
  case false =>
    cases h2 : pyTruthy (dictLookup m "UserComment")
    case true =>
      obtain ⟨s, hs, hne⟩ := pyTruthy_true h2
      simp [hs, hne, h1]
    case false =>
      cases h3 : pyTruthy (dictLookup m "XPComment")
      case true =>
        obtain ⟨s, hs, hne⟩ := pyTruthy_true h3
        simp [hs, hne, h1, h2]
      case false =>
        cases h4 : pyTruthy (dictLookup m "Comment")
        case true =>
          obtain ⟨s, hs, hne⟩ := pyTruthy_true h4
          simp [hs, hne, h1, h2, h3]
        case false =>
          rcases pyTruthy_false h4 with hc | hc <;> simp [hc, h1, h2, h3]

theorem mem_renderFieldLines {fields : List (String × String)} {meta : Dict}
    {kl : String × String} {x : String} (hf : kl ∈ fields)
    (hx : x ∈ renderField meta kl) : x ∈ renderFieldLines fields meta := by
  induction fields with
  | nil => simp at hf
  | cons a rest ih =>
      rcases List.mem_cons.mp hf with h | h
      · subst h; exact List.mem_append_left _ hx
      · exact List.mem_append_right _ (ih h)

/-- C4: the canonical Description of a video is the first non-empty value
among the raw tags Description, UserComment, XPComment, Comment in that
order; when all four are absent or empty it is set to the empty string and
the rendered block contains `- Description: Not found`; a Description
bullet is emitted for every metadata map, never omitted. -/
theorem video_description_chain :
    (∀ lines : List String,
      dictLookup (extract_video_metadata (Except.ok lines)) "Description"
        = some ((firstNonEmpty [dictLookup (parseLines lines) "Description",
            dictLookup (parseLines lines) "UserComment",
            dictLookup (parseLines lines) "XPComment",
            dictLookup (parseLines lines) "Comment"]).getD "")) ∧
    (∀ lines : List String,
      firstNonEmpty [dictLookup (parseLines lines) "Description",
        dictLookup (parseLines lines) "UserComment",
        dictLookup (parseLines lines) "XPComment",
        dictLookup (parseLines lines) "Comment"] = none →
      dictLookup (extract_video_metadata (Except.ok lines)) "Description" = some "" ∧
      bulletLine "Description" "Not found"
        ∈ renderMetaBlock videoFields (extract_video_metadata (Except.ok lines))) ∧
    (∀ meta : Dict, ∃ v, bulletLine "Description" v ∈ renderMetaBlock videoFields meta) := by
  have hmain : ∀ lines : List String,
      dictLookup (extract_video_metadata (Except.ok lines)) "Description"
        = some ((firstNonEmpty [dictLookup (parseLines lines) "Description",
            dictLookup (parseLines lines) "UserComment",
            dictLookup (parseLines lines) "XPComment",
            dictLookup (parseLines lines) "Comment"]).getD "") := by
    intro lines
    unfold extract_video_metadata
    rw [dictLookup_insert_self, descValue_eq_firstNonEmpty]
  have hmemD : ("Description", "Description") ∈ videoFields := by simp [videoFields]
  have hdesc : ∀ meta : Dict, ∃ v, bulletLine "Description" v ∈ renderMetaBlock videoFields meta := by
    intro meta
    cases h : dictLookup meta "Description" with
    | none =>
        exact ⟨"Not found",
          List.mem_append_left _ (mem_renderFieldLines hmemD (by simp [renderField, h]))⟩
    | some v =>
        by_cases hv : v = ""
        · exact ⟨"Not found",
            List.mem_append_left _ (mem_renderFieldLines hmemD (by simp [renderField, h, hv]))⟩
        · exact ⟨v,
            List.mem_append_left _ (mem_renderFieldLines hmemD (by simp [renderField, h, hv]))⟩
  refine ⟨hmain, ?_, hdesc⟩
  intro lines hnone
  have h0 := hmain lines
  rw [hnone] at h0
  refine ⟨h0, ?_⟩
  exact List.mem_append_left _ (mem_renderFieldLines hmemD (by simp [renderField, h0]))

theorem video_description_chain_witness :
    dictLookup (extract_video_metadata (Except.ok ([] : List String))) "Description" = some "" ∧
    bulletLine "Description" "Not found"
      ∈ renderMetaBlock videoFields (extract_video_metadata (Except.ok ([] : List String))) :=
  video_description_chain.2.1 [] (by decide)

theorem renderFieldLines_of_all_none {fields : List (String × String)} {meta : Dict}
    (h : ∀ kl ∈ fields, dictLookup meta kl.1 = none) :
    renderFieldLines fields meta
      = (fields.filter (fun kl => kl.1 == "Description")).map
          (fun kl => bulletLine kl.2 "Not found") := by
  induction fields with
  | nil => rfl
  | cons a rest ih =>
      have ha := h a (List.mem_cons_self a rest)
      have hr := fun kl hkl => h kl (List.mem_cons_of_mem a hkl)
      by_cases hd : a.1 = "Description"
      · rw [hd] at ha
        simp [renderFieldLines, renderField, List.filter_cons, ha, hd, ih hr]
      · simp [renderFieldLines, renderField, List.filter_cons, ha, hd, ih hr]

theorem anyKey_false {fields : List (String × String)} {meta : Dict}
    (h : ∀ kl ∈ fields, dictLookup meta kl.1 = none) :
    fields.any (fun kl => hasKey meta kl.1) = false := by
  simp only [List.any_eq_false, hasKey]
  intro kl hkl
  simp [h kl hkl]

/-- C5 counterexample: for the empty canonical metadata map (none of the
declared fields present) the image-kind block is two lines — the
always-rendered Description bullet followed by `- No metadata found` — and
not the claimed single line. -/
theorem no_metadata_line_not_single :
    renderMetaBlock imageFields [] = ["- Description: Not found", "- No metadata found"] ∧
    renderMetaBlock imageFields [] ≠ ["- No metadata found"] := by
  constructor <;> decide

/-- C5 amended: when the metadata map contains none of the kind's declared
fields, the rendered block is exactly `- Description: Not found` followed by
`- No metadata found`: the latter line is appended after the always-present
Description bullet rather than replacing the list. -/
theorem no_metadata_two_lines :
    (∀ meta : Dict, (∀ kl ∈ imageFields, dictLookup meta kl.1 = none) →
      renderMetaBlock imageFields meta
        = [bulletLine "Description" "Not found", "- No metadata found"]) ∧
    (∀ meta : Dict, (∀ kl ∈ videoFields, dictLookup meta kl.1 = none) →
      renderMetaBlock videoFields meta
        = [bulletLine "Description" "Not found", "- No metadata found"]) := by
  constructor <;> intro meta h <;>
    · unfold renderMetaBlock
      rw [renderFieldLines_of_all_none h, anyKey_false h]
      decide

theorem no_metadata_two_lines_witness :
    renderMetaBlock imageFields [("error", "boom")]
      = [bulletLine "Description" "Not found", "- No metadata found"] :=
  no_metadata_two_lines.1 [("error", "boom")] (by decide)

/-- C6: report sections appear in lexicographic (case-sensitive) order of
file path regardless of directory listing order — the processing order is
sorted, a permutation of the input, depends only on the multiset of input
paths, and on `b.jpg, a.mp4, c.png` it is `a.mp4, b.jpg, c.png`. -/
theorem sections_sorted_lexicographically :
    (∀ files : List String, (sortFiles files).Sorted (· ≤ ·)) ∧
    (∀ files : List String, (sortFiles files).Perm files) ∧
    (∀ files other : List String, files.Perm other → sortFiles files = sortFiles other) ∧
    sortFiles ["b.jpg", "a.mp4", "c.png"] = ["a.mp4", "b.jpg", "c.png"] := by
  have hsorted : ∀ files : List String, (sortFiles files).Sorted (· ≤ ·) :=
    fun files => List.sorted_insertionSort _ files
  have hperm : ∀ files : List String, (sortFiles files).Perm files :=
    fun files => List.perm_insertionSort _ files
  refine ⟨hsorted, hperm, ?_, ?_⟩
  · intro files other hp
    exact List.eq_of_perm_of_sorted
      ((hperm files).trans (hp.trans (hperm other).symm)) (hsorted files) (hsorted other)
  · have htarget : (["a.mp4", "b.jpg", "c.png"] : List String).Sorted (· ≤ ·) := by
      refine List.sorted_cons.mpr ⟨?_, List.sorted_cons.mpr ⟨?_, List.sorted_singleton _⟩⟩
      · intro b hb
        rcases List.mem_cons.mp hb with rfl | hb
        · exact String.le_iff_toList_le.mpr (by decide)
        · rcases List.mem_singleton.mp hb with rfl
          exact String.le_iff_toList_le.mpr (by decide)
      · intro b hb
        rcases List.mem_singleton.mp hb with rfl
        exact String.le_iff_toList_le.mpr (by decide)
    exact List.eq_of_perm_of_sorted ((hperm _).trans (by decide)) (hsorted _) htarget

theorem sections_sorted_witness :
    sortFiles ["b.jpg", "a.mp4"] = sortFiles ["a.mp4", "b.jpg"] :=
  sections_sorted_lexicographically.2.2.1 ["b.jpg", "a.mp4"] ["a.mp4", "b.jpg"] (by decide)

theorem mem_of_dictLookup_eq_some {m : Dict} {k v : String}
    (h : dictLookup m k = some v) : (k, v) ∈ m := by
  induction m with
  | nil => simp [dictLookup] at h
  | cons e rest ih =>
      obtain ⟨k', v'⟩ := e
      by_cases hk : k' = k
      · subst hk
        simp [dictLookup] at h
        simp [h]
      · simp only [dictLookup, if_neg hk] at h
        exact List.mem_cons_of_mem _ (ih h)

theorem dictLookup_of_mem {m : Dict} {k v : String}
    (hn : (m.map Prod.fst).Nodup) (h : (k, v) ∈ m) : dictLookup m k = some v := by
  induction m with
  | nil => simp at h
  | cons e rest ih =>
      obtain ⟨k', v'⟩ := e
      simp only [List.map_cons, List.nodup_cons] at hn
      rcases List.mem_cons.mp h with heq | hmem
      · injection heq with h1 h2
        subst h1
        subst h2
        simp [dictLookup]
      · have hne : k' ≠ k := by
          intro hkk
          subst hkk
          exact hn.1 (List.mem_map.mpr ⟨(k', v), hmem, rfl⟩)
        simp [dictLookup, hne, ih hn.2 hmem]

theorem dictLookup_perm {m m₁ : Dict} (hp : m.Perm m₁)
    (hn : (m.map Prod.fst).Nodup) (k : String) :
    dictLookup m k = dictLookup m₁ k := by
  have hn₁ : (m₁.map Prod.fst).Nodup := ((hp.map Prod.fst).nodup_iff).mp hn
  cases h : dictLookup m k with
  | some v =>
      exact (dictLookup_of_mem hn₁ (hp.mem_iff.mp (mem_of_dictLookup_eq_some h))).symm
  | none =>
      cases h₁ : dictLookup m₁ k with
      | none => rfl
      | some v =>
          have h₂ := dictLookup_of_mem hn (hp.mem_iff.mpr (mem_of_dictLookup_eq_some h₁))
          rw [h] at h₂
          simp at h₂

theorem renderField_congr {m m₁ : Dict}
    (h : ∀ k, dictLookup m k = dictLookup m₁ k) (kl : String × String) :
    renderField m kl = renderField m₁ kl := by
  unfold renderField
  rw [h kl.1]

theorem renderFieldLines_congr (fields : List (String × String)) {m m₁ : Dict}
    (h : ∀ k, dictLookup m k = dictLookup m₁ k) :
    renderFieldLines fields m = renderFieldLines fields m₁ := by
  induction fields with
  | nil => rfl
  | cons a rest ih => simp [renderFieldLines, renderField_congr h, ih]

theorem renderMetaBlock_congr (fields : List (String × String)) {m m₁ : Dict}
    (h : ∀ k, dictLookup m k = dictLookup m₁ k) :
    renderMetaBlock fields m = renderMetaBlock fields m₁ := by
  unfold renderMetaBlock
  rw [renderFieldLines_congr fields h]
  have hfun : (fun kl : String × String => hasKey m kl.1)
      = (fun kl : String × String => hasKey m₁ kl.1) := by
    funext kl
    simp [hasKey, h kl.1]
  rw [hfun]

theorem renderField_length_le (m : Dict) (kl : String × String) :
    (renderField m kl).length ≤ 1 := by
  unfold renderField
  by_cases h : kl.1 = "Description"
  · rw [if_pos h]
    cases dictLookup m kl.1 with
    | none => simp
    | some v => by_cases hv : v = "" <;> simp [hv]
  · rw [if_neg h]
    cases dictLookup m kl.1 with
    | none => simp
    | some v => simp

theorem renderFieldPairs_snd (fields : List (String × String)) (m : Dict) :
    (renderFieldPairs fields m).map Prod.snd = renderFieldLines fields m := by
  induction fields with
  | nil => rfl
  | cons a rest ih =>
      simp [renderFieldPairs, renderFieldLines, List.map_map, Function.comp, ih]

theorem renderFieldPairs_fst_sublist (fields : List (String × String)) (m : Dict) :
    List.Sublist ((renderFieldPairs fields m).map Prod.fst) (fields.map Prod.snd) := by
  induction fields with
  | nil => simp [renderFieldPairs]
  | cons a rest ih =>
      have h1 : (renderFieldPairs (a :: rest) m).map Prod.fst
          = (renderField m a).map (fun _ => a.2) ++ (renderFieldPairs rest m).map Prod.fst := by
        simp [renderFieldPairs, List.map_map, Function.comp]
      rw [h1, List.map_cons]
      cases hE : renderField m a with
      | nil => simpa using ih.cons a.2
      | cons x xs =>
          have hlen := renderField_length_le m a
          rw [hE] at hlen
          have hxs : xs = [] := by
            cases xs with
            | nil => rfl
            | cons y ys => simp at hlen
          subst hxs
          simpa using ih.cons₂ a.2

theorem label_not_rendered {fields : List (String × String)} {m : Dict} {k label : String}
    (hnd : (fields.map Prod.snd).Nodup) (hmem : (k, label) ∈ fields)
    (hk : ¬ k = "Description") (habs : dictLookup m k = none) :
    label ∉ (renderFieldPairs fields m).map Prod.fst := by
  induction fields with
  | nil => simp at hmem
  | cons a rest ih =>
      simp only [List.map_cons, List.nodup_cons] at hnd
      intro hin
      have hsplit : (renderFieldPairs (a :: rest) m).map Prod.fst
          = (renderField m a).map (fun _ => a.2) ++ (renderFieldPairs rest m).map Prod.fst := by
        simp [renderFieldPairs, List.map_map, Function.comp]
      rw [hsplit] at hin
      rcases List.mem_append.mp hin with h1 | h2
      · obtain ⟨l, _, hlab⟩ := List.mem_map.mp h1
        rcases List.mem_cons.mp hmem with heq | hmemrest
        · have hF : renderField m (k, label) = [] := by
            simp [renderField, hk, habs]
          rw [← heq, hF] at h1
          simp at h1
        · have hlabmem : label ∈ rest.map Prod.snd :=
            List.mem_map.mpr ⟨(k, label), hmemrest, rfl⟩
          rw [← hlab] at hlabmem
          exact hnd.1 hlabmem
      · rcases List.mem_cons.mp hmem with heq | hmemrest
        · have hlab : label = a.2 := congrArg Prod.snd heq
          have hlabmem : label ∈ rest.map Prod.snd :=
            (renderFieldPairs_fst_sublist rest m).subset h2
          exact hnd.1 (hlab ▸ hlabmem)
        · exact ih hnd.2 hmemrest h2

/-- C7: the report assembler's bullets follow the declared per-kind field
list: the output is unchanged under any permutation of the metadata map
(no dependence on its internal iteration order); the labels of the emitted
bullets form an in-order subsequence of the declared label list (which runs
from Creation Date to Image Height for both kinds); and a field absent from
the map contributes no line unless it is Description. -/
theorem render_order_invariant :
    (∀ (fields : List (String × String)) (m m₁ : Dict),
      m.Perm m₁ → (m.map Prod.fst).Nodup →
      renderMetaBlock fields m = renderMetaBlock fields m₁) ∧
    (∀ (fields : List (String × String)) (m : Dict),
      (renderFieldPairs fields m).map Prod.snd = renderFieldLines fields m ∧
      List.Sublist ((renderFieldPairs fields m).map Prod.fst) (fields.map Prod.snd)) ∧
    (∀ (fields : List (String × String)) (m : Dict) (k label : String),
      (fields.map Prod.snd).Nodup → (k, label) ∈ fields → ¬ k = "Description" →
      dictLookup m k = none →
      label ∉ (renderFieldPairs fields m).map Prod.fst) ∧
    videoFields.map Prod.snd = ["Creation Date", "Description", "Video Length",
      "Video Description", "GPS", "Make", "Model", "MIME Type", "File Name",
      "File Size", "Image Width", "Image Height"] ∧
    imageFields.map Prod.snd = ["Creation Date", "Description", "GPS", "Make", "Model",
      "MIME Type", "File Name", "File Size", "Image Width", "Image Height"] := by
  refine ⟨?_, ?_, ?_, by decide, by decide⟩
  · intro fields m m₁ hp hn
    exact renderMetaBlock_congr fields (dictLookup_perm hp hn)
  · intro fields m
    exact ⟨renderFieldPairs_snd fields m, renderFieldPairs_fst_sublist fields m⟩
  · intro fields m k label hnd hmem hk habs
    exact label_not_rendered hnd hmem hk habs

theorem render_order_invariant_witness :
    renderMetaBlock videoFields [("Make", "A"), ("Model", "B")]
      = renderMetaBlock videoFields [("Model", "B"), ("Make", "A")] ∧
    "GPS" ∉ (renderFieldPairs videoFields [("Make", "A")]).map Prod.fst :=
  ⟨render_order_invariant.1 videoFields [("Make", "A"), ("Model", "B")]
      [("Model", "B"), ("Make", "A")] (List.Perm.swap _ _ _) (by decide),
   render_order_invariant.2.2.1 videoFields [("Make", "A")] "GPS" "GPS"
      (by decide) (by decide) (by decide) (by decide)⟩

/-- C8 counterexample: for the video kind a probe line `Make:` parses to a
`Make` tag with empty value, which produces a canonical field (present with
value `""`) and still renders the bullet `- Make: ` — empty is not treated
as absent. -/
theorem empty_make_renders_line :
    dictLookup (extract_video_metadata (Except.ok ["Make:"])) "Make" = some "" ∧
    bulletLine "Make" ""
      ∈ renderMetaBlock videoFields (extract_video_metadata (Except.ok ["Make:"])) := by
  constructor <;> decide

/-- C8 amended: for the image kind an empty raw tag value is treated
exactly like an absent tag (the extracted metadata is identical); for the
video kind a parsed tag with an empty value is kept as a canonical field
and still renders a bullet line with an empty value. -/
theorem empty_value_handling_by_kind :
    (∀ (img : ImageFileData) (ex : ExifData),
      extract_image_metadata (.opened (withExif img { ex with make := some "" }))
        = extract_image_metadata (.opened (withExif img { ex with make := none })) ∧
      extract_image_metadata (.opened (withExif img { ex with model := some "" }))
        = extract_image_metadata (.opened (withExif img { ex with model := none })) ∧
      extract_image_metadata (.opened (withExif img { ex with dateTimeOriginal := some "" }))
        = extract_image_metadata (.opened (withExif img { ex with dateTimeOriginal := none })) ∧
      extract_image_metadata (.opened (withExif img { ex with description := some "" }))
        = extract_image_metadata (.opened (withExif img { ex with description := none }))) ∧
    (∀ (m : Dict) (k label : String), (k, label) ∈ videoFields → ¬ k = "Description" →
      dictLookup m k = some "" →
      hasKey m k = true ∧ bulletLine label "" ∈ renderFieldLines videoFields m) := by
  constructor
  · intro img ex
    refine ⟨?_, ?_, ?_, ?_⟩ <;>
      simp [extract_image_metadata, withExif, truthyEntry, fileEntries]
  · intro m k label hmem hk h
    refine ⟨by simp [hasKey, h], ?_⟩
    exact mem_renderFieldLines hmem (by simp [renderField, hk, h])

theorem empty_value_handling_witness :
    extract_image_metadata (ImageSource.opened (withExif ⟨2, 2, none, "a.jpg", 0, "image/png"⟩
        { dateTimeOriginal := none, gps := none, make := some "", model := none,
          description := none }))
      = extract_image_metadata (ImageSource.opened (withExif ⟨2, 2, none, "a.jpg", 0, "image/png"⟩
        { dateTimeOriginal := none, gps := none, make := none, model := none,
          description := none })) ∧
    bulletLine "Make" "" ∈ renderFieldLines videoFields [("Make", "")] :=
  ⟨(empty_value_handling_by_kind.1 ⟨2, 2, none, "a.jpg", 0, "image/png"⟩
      { dateTimeOriginal := none, gps := none, make := none, model := none,
        description := none }).1,
   (empty_value_handling_by_kind.2 [("Make", "")] "Make" "Make"
      (by decide) (by decide) (by decide)).2⟩

theorem to_deg_zero_den {t : Triple} (h : hasZeroDen t) :
    to_deg t = .error "float division by zero" := by
  rcases h with h | h | h
  · simp [to_deg, floatDiv, h, Bind.bind, Except.bind]
  · by_cases h1 : t.1.2 = 0 <;> simp [to_deg, floatDiv, h, h1, Bind.bind, Except.bind]
  · by_cases h1 : t.1.2 = 0 <;> by_cases h2 : t.2.1.2 = 0 <;>
      simp [to_deg, floatDiv, h, h1, h2, Bind.bind, Except.bind]

theorem to_deg_ok {t : Triple} (h : ¬ hasZeroDen t) : ∃ q, to_deg t = .ok q := by
  have h1 : ¬ t.1.2 = 0 := fun hh => h (Or.inl hh)
  have h2 : ¬ t.2.1.2 = 0 := fun hh => h (Or.inr (Or.inl hh))
  have h3 : ¬ t.2.2.2 = 0 := fun hh => h (Or.inr (Or.inr hh))
  refine ⟨(t.1.1 : ℚ) / (t.1.2 : ℚ) + (t.2.1.1 : ℚ) / (t.2.1.2 : ℚ) / 60
    + (t.2.2.1 : ℚ) / (t.2.2.2 : ℚ) / 3600, ?_⟩
  simp [to_deg, floatDiv, h1, h2, h3, Bind.bind, Except.bind, Pure.pure, Except.pure]

theorem gps_decimal_zero_den {a b : Triple} (h : hasZeroDen a ∨ hasZeroDen b) :
    exif_gps_to_decimal [a, b] = .error "float division by zero" := by
  by_cases ha : hasZeroDen a
  · simp [exif_gps_to_decimal, to_deg_zero_den ha, Bind.bind, Except.bind]
  · obtain ⟨q, hq⟩ := to_deg_ok ha
    simp [exif_gps_to_decimal, hq, to_deg_zero_den (h.resolve_left ha),
      Bind.bind, Except.bind]

/-- C2 counterexample: two image inputs identical except that the second
has a zero denominator in its latitude triple. The first extracts a `Make`
field; the second loses it (along with every other field assigned after the
GPS step) because the `ZeroDivisionError` aborts the rest of the `try`
block — other canonical fields are not unaffected. -/
theorem zero_denominator_drops_make_field :
    dictLookup (extract_image_metadata (ImageSource.opened
        ⟨2, 2, some (Except.ok ⟨none, some ⟨some ((10, 1), (30, 1), (0, 1)),
          some ((20, 1), (0, 1), (0, 1)), some "N", some "E"⟩,
          some "Canon", none, none⟩), "a.jpg", 2048, "image/jpeg"⟩)) "Make"
      = some "Canon" ∧
    dictLookup (extract_image_metadata (ImageSource.opened
        ⟨2, 2, some (Except.ok ⟨none, some ⟨some ((10, 0), (30, 1), (0, 1)),
          some ((20, 1), (0, 1), (0, 1)), some "N", some "E"⟩,
          some "Canon", none, none⟩), "a.jpg", 2048, "image/jpeg"⟩)) "Make"
      = none ∧
    dictLookup (extract_image_metadata (ImageSource.opened
        ⟨2, 2, some (Except.ok ⟨none, some ⟨some ((10, 0), (30, 1), (0, 1)),
          some ((20, 1), (0, 1), (0, 1)), some "N", some "E"⟩,
          some "Canon", none, none⟩), "a.jpg", 2048, "image/jpeg"⟩)) "error"
      = some "float division by zero" ∧
    dictLookup (extract_image_metadata (ImageSource.opened
        ⟨2, 2, some (Except.ok ⟨none, some ⟨some ((10, 0), (30, 1), (0, 1)),
          some ((20, 1), (0, 1), (0, 1)), some "N", some "E"⟩,
          some "Canon", none, none⟩), "a.jpg", 2048, "image/jpeg"⟩)) "GPS"
      = none := by
  refine ⟨?_, by decide, by decide, by decide⟩
  simp [extract_image_metadata, gpsStep, imageGpsEntry, exif_gps_to_decimal, to_deg,
    floatDiv, truthyEntry, fileEntries, dictLookup, Bind.bind, Except.bind, Pure.pure,
    Except.pure]

/-- C2 amended: on a raw GPS input with a zero denominator the conversion
raises `ZeroDivisionError`, which the extractor's `except` catches — the
function itself never raises — but the failure is not limited to the GPS
field: extraction stops there, so the resulting map is `Image Size`, the
Creation Date entry when one was already assigned, and a single `error`
entry; `GPS`, `Make` and the file-info fields are all absent. -/
theorem zero_denominator_aborts_extraction
    (img : ImageFileData) (ex : ExifData) (g : GpsIFD) (latT lonT : Triple)
    (hexif : img.exif = some (Except.ok ex)) (hgps : ex.gps = some g)
    (hlat : g.lat = some latT) (hlon : g.lon = some lonT)
    (hzero : hasZeroDen latT ∨ hasZeroDen lonT) :
    extract_image_metadata (.opened img)
      = [("Image Size", sizeStr img.width img.height)]
          ++ truthyEntry "Creation Date" ex.dateTimeOriginal
          ++ [("error", "float division by zero")] ∧
    dictLookup (extract_image_metadata (.opened img)) "GPS" = none ∧
    dictLookup (extract_image_metadata (.opened img)) "Make" = none ∧
    dictLookup (extract_image_metadata (.opened img)) "File Name" = none := by
  have hstep : gpsStep ex.gps = .error "float division by zero" := by
    rw [hgps]
    simp [gpsStep, imageGpsEntry, hlat, hlon, gps_decimal_zero_den hzero]
  have hmain : extract_image_metadata (.opened img)
      = [("Image Size", sizeStr img.width img.height)]
          ++ truthyEntry "Creation Date" ex.dateTimeOriginal
          ++ [("error", "float division by zero")] := by
    simp [extract_image_metadata, hexif, hstep]
  refine ⟨hmain, ?_, ?_, ?_⟩ <;> rw [hmain] <;>
    · cases hd : ex.dateTimeOriginal with
      | none => simp [truthyEntry, dictLookup]
      | some s => by_cases hs : s = "" <;> simp [truthyEntry, hs, dictLookup]

theorem zero_denominator_aborts_extraction_witness :
    extract_image_metadata (ImageSource.opened
        ⟨2, 2, some (Except.ok ⟨none, some ⟨some ((10, 0), (30, 1), (0, 1)),
          some ((20, 1), (0, 1), (0, 1)), some "N", some "E"⟩,
          some "Canon", none, none⟩), "a.jpg", 2048, "image/jpeg"⟩)
      = [("Image Size", sizeStr 2 2)] ++ truthyEntry "Creation Date" none
          ++ [("error", "float division by zero")] :=
  (zero_denominator_aborts_extraction
    ⟨2, 2, some (Except.ok ⟨none, some ⟨some ((10, 0), (30, 1), (0, 1)),
      some ((20, 1), (0, 1), (0, 1)), some "N", some "E"⟩,
      some "Canon", none, none⟩), "a.jpg", 2048, "image/jpeg"⟩
    ⟨none, some ⟨some ((10, 0), (30, 1), (0, 1)),
      some ((20, 1), (0, 1), (0, 1)), some "N", some "E"⟩,
      some "Canon", none, none⟩
    ⟨some ((10, 0), (30, 1), (0, 1)), some ((20, 1), (0, 1), (0, 1)), some "N", some "E"⟩
    ((10, 0), (30, 1), (0, 1)) ((20, 1), (0, 1), (0, 1))
    rfl rfl rfl rfl (Or.inl (Or.inl rfl))).1

/-- C9 counterexample: an image whose EXIF bytes make the EXIF decoder
raise (after `Image.open` has succeeded) yields a map with `Image Size`
alongside `error` — not a single `error` field. -/
theorem late_exif_failure_keeps_image_size :
    extract_image_metadata (ImageSource.opened
        ⟨4, 3, some (Except.error "bad exif"), "x.png", 0, "image/png"⟩)
      = [("Image Size", "4x3"), ("error", "bad exif")] ∧
    extract_image_metadata (ImageSource.opened
        ⟨4, 3, some (Except.error "bad exif"), "x.png", 0, "image/png"⟩)
      ≠ [("error", "bad exif")] := by
  constructor <;> decide

/-- C9 amended: a probe invocation failure, an `Image.open` failure, and the
missing-HEIC-decoder case each yield a map whose only entry is `error`, and
an EXIF decode failure after opening yields `Image Size` plus `error`; in
every case the extractor returns the map instead of raising, and a map
holding only an `error` entry renders as the Description `Not found` bullet
followed by `- No metadata found` for both kinds. -/
theorem tag_read_failure_fields :
    (∀ e : String, extract_video_metadata (Except.error e) = [("error", e)]) ∧
    (∀ e : String, extract_image_metadata (.openFail e) = [("error", e)]) ∧
    extract_image_metadata .heicNoLib
      = [("error", "pyheif not installed; cannot extract HEIC metadata.")] ∧
    (∀ (img : ImageFileData) (e : String), img.exif = some (Except.error e) →
      extract_image_metadata (.opened img)
        = [("Image Size", sizeStr img.width img.height), ("error", e)]) ∧
    (∀ e : String,
      renderMetaBlock videoFields [("error", e)]
        = [bulletLine "Description" "Not found", "- No metadata found"] ∧
      renderMetaBlock imageFields [("error", e)]
        = [bulletLine "Description" "Not found", "- No metadata found"]) := by
  refine ⟨fun e => rfl, fun e => rfl, rfl, ?_, ?_⟩
  · intro img e h
    simp [extract_image_metadata, h]
  · intro e
    have hv : ∀ kl ∈ videoFields, dictLookup [("error", e)] kl.1 = none := by
      intro kl hkl
      simp only [videoFields, List.mem_cons, List.not_mem_nil, or_false] at hkl
      rcases hkl with rfl | rfl | rfl | rfl | rfl | rfl | rfl | rfl | rfl | rfl | rfl | rfl <;>
        simp [dictLookup]
    have hi : ∀ kl ∈ imageFields, dictLookup [("error", e)] kl.1 = none := by
      intro kl hkl
      simp only [imageFields, List.mem_cons, List.not_mem_nil, or_false] at hkl
      rcases hkl with rfl | rfl | rfl | rfl | rfl | rfl | rfl | rfl | rfl | rfl <;>
        simp [dictLookup]
    constructor
    · unfold renderMetaBlock
      rw [renderFieldLines_of_all_none hv, anyKey_false hv]
      decide
    · unfold renderMetaBlock
      rw [renderFieldLines_of_all_none hi, anyKey_false hi]
      decide

theorem tag_read_failure_witness :
    extract_image_metadata (ImageSource.opened
        ⟨4, 3, some (Except.error "bad exif"), "x.png", 0, "image/png"⟩)
      = [("Image Size", sizeStr 4 3), ("error", "bad exif")] :=
  tag_read_failure_fields.2.2.2.1
    ⟨4, 3, some (Except.error "bad exif"), "x.png", 0, "image/png"⟩ "bad exif" rfl

/-- C10: each hemisphere reference defaults independently —
`gps.get(GPSLatitudeRef, b'N')` and `gps.get(GPSLongitudeRef, b'E')` are
separate lookups, so an absent latitude reference behaves exactly like an
explicit `N` whatever the longitude reference is (including `W`), an absent
longitude reference behaves exactly like an explicit `E` whatever the
latitude reference is (including `S`), and on a successful conversion the
coordinate whose reference is missing is stored with its sign untouched
while the other coordinate still obeys its own reference. -/
theorem missing_gps_refs_default_north_east :
    (∀ g : GpsIFD, g.latRef = none →
      imageGpsEntry g = imageGpsEntry { g with latRef := some "N" }) ∧
    (∀ g : GpsIFD, g.lonRef = none →
      imageGpsEntry g = imageGpsEntry { g with lonRef := some "E" }) ∧
    (∀ (g : GpsIFD) (latT lonT : Triple) (p : ℚ × ℚ),
      g.lat = some latT → g.lon = some lonT →
      exif_gps_to_decimal [latT, lonT] = Except.ok (some p) →
      (g.latRef = none →
        imageGpsEntry g = Except.ok [("GPS",
          formatGps p.1 (if g.lonRef.getD "E" = "W" then -p.2 else p.2))]) ∧
      (g.lonRef = none →
        imageGpsEntry g = Except.ok [("GPS",
          formatGps (if g.latRef.getD "N" = "S" then -p.1 else p.1) p.2)])) := by
  refine ⟨?_, ?_, ?_⟩
  · intro g h
    simp [imageGpsEntry, h]
  · intro g h
    simp [imageGpsEntry, h]
  · intro g latT lonT p hlat hlon hconv
    constructor <;> intro h <;>
      simp [imageGpsEntry, hlat, hlon, hconv, h, applySignRefs]

theorem missing_gps_refs_witness :
    imageGpsEntry
        ⟨some ((1, 1), (30, 1), (0, 1)), some ((2, 1), (15, 1), (0, 1)), none, some "W"⟩
      = imageGpsEntry
          ⟨some ((1, 1), (30, 1), (0, 1)), some ((2, 1), (15, 1), (0, 1)), some "N", some "W"⟩ ∧
    imageGpsEntry
        ⟨some ((1, 1), (30, 1), (0, 1)), some ((2, 1), (15, 1), (0, 1)), some "S", none⟩
      = imageGpsEntry
          ⟨some ((1, 1), (30, 1), (0, 1)), some ((2, 1), (15, 1), (0, 1)), some "S", some "E"⟩ :=
  ⟨missing_gps_refs_default_north_east.1
    ⟨some ((1, 1), (30, 1), (0, 1)), some ((2, 1), (15, 1), (0, 1)), none, some "W"⟩ rfl,
   missing_gps_refs_default_north_east.2.1
    ⟨some ((1, 1), (30, 1), (0, 1)), some ((2, 1), (15, 1), (0, 1)), some "S", none⟩ rfl⟩
